import Mathlib

/-!
Verification development for the battleship repository
(src/battleship/ship.py, src/battleship/board.py, src/battleship/player.py).

Coordinates are pairs of integers, 1-indexed on the board. Python sets become
`Finset`, mutation becomes explicit state passing, and `raise ValueError`
becomes `Except`. Methods of ship.py whose bodies are TODO stubs in the
source are modelled from the specification (spec.md) and carry a doc comment
starting with `Modelled from the spec:`.
-/

namespace Battleship

/-- A coordinate on (or off) the board: a pair of integers (x, y). -/
abbrev Coord := Int × Int

/-- Embeds the state of `Ship` (ship.py): normalized corner fields
`x_start, y_start, x_end, y_end` and the mutable damage set
`set_coordinates_damages`. -/
structure Ship where
  x_start : Int
  y_start : Int
  x_end : Int
  y_end : Int
  set_coordinates_damages : Finset Coord
deriving DecidableEq

namespace Ship

/-- Modelled from the spec: the body of `Ship.is_vertical` is a TODO stub in
src/battleship/ship.py; spec.md defines vertical as `x_start == x_end`. -/
def is_vertical (s : Ship) : Bool :=
  s.x_start == s.x_end

/-- Modelled from the spec: the body of `Ship.is_horizontal` is a TODO stub in
src/battleship/ship.py; spec.md defines horizontal as `y_start == y_end`. -/
def is_horizontal (s : Ship) : Bool :=
  s.y_start == s.y_end

/-- Embeds `Ship.__init__`: normalizes the two corners componentwise with
min/max, then fails when the segment is neither horizontal nor vertical
(the orientation predicates themselves are modelled from the spec, see
`is_vertical` / `is_horizontal`). A fresh ship has an empty damage set. -/
def construct (coord_start coord_end : Coord) : Except String Ship :=
  let s : Ship :=
    { x_start := min coord_start.1 coord_end.1
      y_start := min coord_start.2 coord_end.2
      x_end := max coord_start.1 coord_end.1
      y_end := max coord_start.2 coord_end.2
      set_coordinates_damages := ∅ }
  if !s.is_horizontal && !s.is_vertical then
    Except.error "The ship_1 needs to have either a horizontal or a vertical orientation."
  else
    Except.ok s

/-- Modelled from the spec: the body of `Ship.length` is a TODO stub in
src/battleship/ship.py; spec.md defines length as the Chebyshev span of the
corners plus one. -/
def length (s : Ship) : Nat :=
  (max (s.x_end - s.x_start) (s.y_end - s.y_start)).toNat + 1

/-- Modelled from the spec: the body of `Ship.get_all_coordinates` is a TODO
stub in src/battleship/ship.py; spec.md defines the occupied cells as the set
of all cells on the normalized segment, which for an axis-aligned ship is the
product of the two corner intervals. -/
def get_all_coordinates (s : Ship) : Finset Coord :=
  Finset.Icc s.x_start s.x_end ×ˢ Finset.Icc s.y_start s.y_end

/-- Modelled from the spec: the body of `Ship.is_on_coordinate` is a TODO stub
in src/battleship/ship.py; spec.md defines it as membership in the occupied
cells. -/
def is_on_coordinate (s : Ship) (coord_x coord_y : Int) : Bool :=
  decide ((coord_x, coord_y) ∈ s.get_all_coordinates)

/-- Modelled from the spec: the body of `Ship.gets_damage_at` is a TODO stub in
src/battleship/ship.py; spec.md's `applyDamage(c)` records `c` into the damage
set only if `c` is an occupied cell, and is a no-op otherwise. -/
def gets_damage_at (s : Ship) (coord_damage_x coord_damage_y : Int) : Ship :=
  if (coord_damage_x, coord_damage_y) ∈ s.get_all_coordinates then
    { s with set_coordinates_damages :=
        insert (coord_damage_x, coord_damage_y) s.set_coordinates_damages }
  else
    s

/-- Modelled from the spec: the body of `Ship.is_damaged_at` is a TODO stub in
src/battleship/ship.py; it queries membership in the damage set. -/
def is_damaged_at (s : Ship) (coord_x coord_y : Int) : Bool :=
  decide ((coord_x, coord_y) ∈ s.set_coordinates_damages)

/-- Modelled from the spec: the body of `Ship.number_damages` is a TODO stub in
src/battleship/ship.py; it counts the damaged coordinates. -/
def number_damages (s : Ship) : Nat :=
  s.set_coordinates_damages.card

/-- Modelled from the spec: the body of `Ship.has_sunk` is a TODO stub in
src/battleship/ship.py; spec.md defines sunk as the damage set equalling the
occupied cells. -/
def has_sunk (s : Ship) : Bool :=
  decide (s.set_coordinates_damages = s.get_all_coordinates)

/-- Embeds `Ship.is_near_coordinate` (implemented in src/battleship/ship.py):
the coordinate lies in the corner rectangle expanded by one in every
direction. -/
def is_near_coordinate (s : Ship) (coord_x coord_y : Int) : Bool :=
  decide (s.x_start - 1 ≤ coord_x ∧ coord_x ≤ s.x_end + 1 ∧
          s.y_start - 1 ≤ coord_y ∧ coord_y ≤ s.y_end + 1)

/-- Modelled from the spec: the body of `Ship.is_near_ship` is a TODO stub in
src/battleship/ship.py; spec.md defines it as: some cell of the other ship is
near this ship. -/
def is_near_ship (s other : Ship) : Bool :=
  decide (∃ c ∈ other.get_all_coordinates, s.is_near_coordinate c.1 c.2 = true)

end Ship

/-- Board grid width `Board.SIZE_X` (board.py). -/
def SIZE_X : Int := 10

/-- Board grid height `Board.SIZE_Y` (board.py). -/
def SIZE_Y : Int := 10

/-- Embeds `Board.valid_coordinates` (board.py): bounds check against the
grid. -/
def valid_coordinates (x y : Int) : Bool :=
  decide (1 ≤ x ∧ x ≤ SIZE_X ∧ 1 ≤ y ∧ y ≤ SIZE_Y)

/-- The set of valid grid cells, `[1, SIZE_X] × [1, SIZE_Y]`. -/
def grid : Finset Coord :=
  Finset.Icc 1 SIZE_X ×ˢ Finset.Icc 1 SIZE_Y

/-- Embeds `Board.DICT_NUMBER_SHIPS_PER_LENGTH = {1:1, 2:1, 3:1, 4:1, 5:1}`
(board.py) as the multiset of required ship lengths: a length histogram equals
that dict exactly when the multiset of fleet lengths is `{1, 2, 3, 4, 5}`. -/
def required_lengths : Multiset Nat := {1, 2, 3, 4, 5}

/-- Embeds `Board.lengths_of_ships_correct` (board.py): the histogram dict
built from the fleet equals `DICT_NUMBER_SHIPS_PER_LENGTH`, i.e. the multiset
of ship lengths equals `required_lengths`. -/
def lengths_of_ships_correct (list_ships : List Ship) : Bool :=
  decide (((list_ships.map Ship.length : List Nat) : Multiset Nat) = required_lengths)

/-- Embeds python's `itertools.combinations(list, 2)`: all pairs taken at
distinct positions, earlier position first. -/
def combinations2 : List Ship → List (Ship × Ship)
  | [] => []
  | s :: rest => rest.map (fun t => (s, t)) ++ combinations2 rest

/-- Embeds `Board.valid_ship_placements` (board.py): no pair from
`combinations(list_ships, 2)` has `p[0].is_near_ship(p[1]) and p[0] != p[1]`. -/
def valid_ship_placements (list_ships : List Ship) : Bool :=
  (combinations2 list_ships).all fun p => !(p.1.is_near_ship p.2 && p.1 != p.2)

/-- Embeds `Board.are_some_ships_too_close_from_each_other` (board.py). -/
def are_some_ships_too_close_from_each_other (list_ships : List Ship) : Bool :=
  !valid_ship_placements list_ships

/-- The two construction-failure kinds of `Board.__init__` (board.py): the two
`raise ValueError` sites, named as in spec.md's error taxonomy. -/
inductive BoardError where
  | InvalidFleetComposition
  | ShipsTooClose
deriving DecidableEq

/-- Embeds the state of `Board` (board.py): the fleet and the shot history. -/
structure Board where
  list_ships : List Ship
  set_coordinates_previous_shots : Finset Coord
deriving DecidableEq

namespace Board

/-- Embeds `Board.__init__` (board.py): checks the length histogram first,
then ship closeness, and otherwise builds a board with an empty shot
history. -/
def construct (list_ships : List Ship) : Except BoardError Board :=
  if !lengths_of_ships_correct list_ships then
    Except.error BoardError.InvalidFleetComposition
  else if are_some_ships_too_close_from_each_other list_ships then
    Except.error BoardError.ShipsTooClose
  else
    Except.ok { list_ships := list_ships, set_coordinates_previous_shots := ∅ }

/-- Embeds the fleet scan of `Board.is_attacked_at` (board.py): walk the fleet
in order, damage the first ship occupying the coordinate, and return the
updated fleet together with the `(is_damaged_at, has_sunk)` result pair. -/
def attackFleet (coord_x coord_y : Int) : List Ship → List Ship × Bool × Bool
  | [] => ([], false, false)
  | s :: rest =>
    if (coord_x, coord_y) ∈ s.get_all_coordinates then
      let s2 := s.gets_damage_at coord_x coord_y
      (s2 :: rest, s2.is_damaged_at coord_x coord_y, s2.has_sunk)
    else
      let r := attackFleet coord_x coord_y rest
      (s :: r.1, r.2)

/-- Embeds `Board.is_attacked_at` (board.py): unconditionally record the shot
in `set_coordinates_previous_shots`, then resolve it against the fleet. -/
def is_attacked_at (b : Board) (coord_x coord_y : Int) : Board × Bool × Bool :=
  let r := attackFleet coord_x coord_y b.list_ships
  ({ list_ships := r.1
     set_coordinates_previous_shots :=
       insert (coord_x, coord_y) b.set_coordinates_previous_shots },
   r.2)

/-- Embeds `Board.has_no_ships_left` (board.py). -/
def has_no_ships_left (b : Board) : Bool :=
  b.list_ships.all Ship.has_sunk

/-- A sequence of attacks on a board, one `is_attacked_at` per coordinate:
the state evolution driven by `Player.attacks` (player.py). -/
def apply_attacks (b : Board) (shots : List Coord) : Board :=
  shots.foldl (fun bd c => (bd.is_attacked_at c.1 c.2).1) b

end Board

/-- Embeds the attacker memory of `PlayerAutomatic` (player.py): the
`successful_hits` set inherited from `Player`, plus the
`set_ships_opponent_previously_sunk` and `set_positions_previously_attacked`
sets of `PlayerAI`. -/
structure PlayerMem where
  successful_hits : Finset Coord
  set_ships_opponent_previously_sunk : Finset Ship
  set_positions_previously_attacked : Finset Coord
deriving DecidableEq

namespace PlayerMem

/-- Embeds `PlayerAI._is_position_near_previously_sunk_ship` (player.py). -/
def is_position_near_previously_sunk_ship (p : PlayerMem) (c : Coord) : Bool :=
  decide (∃ s ∈ p.set_ships_opponent_previously_sunk,
            s.has_sunk = true ∧ s.is_near_coordinate c.1 c.2 = true)

/-- Embeds `PlayerAI.select_random_coordinates_to_attack` (player.py): the
retry loop is modelled on an explicit stream of random draws, returning the
first draw that is neither previously attacked nor near a previously sunk
ship, and `none` when the stream runs out. -/
def select_random_coordinates_to_attack (p : PlayerMem) : List Coord → Option Coord
  | [] => none
  | d :: ds =>
    if d ∈ p.set_positions_previously_attacked ∨
        p.is_position_near_previously_sunk_ship d = true then
      p.select_random_coordinates_to_attack ds
    else
      some d

/-- The offsets `(i, j)` with `i, j ∈ {-1, 0, 1}` and `(i, j) ≠ (0, 0)`
enumerated by `PlayerAutomatic._get_positions_near_hits` (player.py). -/
def neighborOffsets : List (Int × Int) :=
  [(-1, -1), (-1, 0), (-1, 1), (0, -1), (0, 1), (1, -1), (1, 0), (1, 1)]

/-- Embeds `PlayerAutomatic._get_positions_near_hits` (player.py): all valid
cells one king-move away from some successful hit. -/
def get_positions_near_hits (p : PlayerMem) : Finset Coord :=
  p.successful_hits.biUnion fun h =>
    ((neighborOffsets.filter fun d => valid_coordinates (h.1 + d.1) (h.2 + d.2)).map
      fun d => (h.1 + d.1, h.2 + d.2)).toFinset

/-- Embeds `PlayerAutomatic._update_sunk_ships` (player.py): add every sunk
opponent ship to the remembered sunk set. -/
def update_sunk_ships (p : PlayerMem) (opponent_ships : List Ship) : PlayerMem :=
  { p with set_ships_opponent_previously_sunk :=
      p.set_ships_opponent_previously_sunk ∪
        (opponent_ships.filter Ship.has_sunk).toFinset }

/-- Embeds `PlayerAutomatic._get_positions_near_ships` (player.py): the grid
cells near some ship of the given set. -/
def get_positions_near_ships (ships : Finset Ship) : Finset Coord :=
  grid.filter fun c => ∃ s ∈ ships, s.is_near_coordinate c.1 c.2 = true

/-- Embeds `PlayerAutomatic._get_likely_targets` (player.py):
`targets - duds - previous_attacks`. -/
def get_likely_targets (p : PlayerMem) : Finset Coord :=
  (p.get_positions_near_hits \ get_positions_near_ships p.set_ships_opponent_previously_sunk) \ p.set_positions_previously_attacked

/-- Embeds `PlayerAutomatic.select_coordinates_to_attack` (player.py): update
the sunk-ship memory, pop a likely target when one exists (the arbitrary
`set.pop` is modelled by the `pick` parameter), otherwise fall back to the
random selection over the draw stream; the chosen position is recorded into
`set_positions_previously_attacked` before returning. -/
def select_coordinates_to_attack (p : PlayerMem) (opponent_ships : List Ship)
    (pick : Finset Coord → Coord) (draws : List Coord) :
    Option (Coord × PlayerMem) :=
  let p1 := p.update_sunk_ships opponent_ships
  let lt := p1.get_likely_targets
  let pos? : Option Coord :=
    if lt ≠ ∅ then some (pick lt)
    else p1.select_random_coordinates_to_attack draws
  match pos? with
  | none => none
  | some c =>
    let p2 := { p1 with set_positions_previously_attacked := insert c p1.set_positions_previously_attacked }
    some (c, p2)

end PlayerMem

/-- The invariant established by `Ship.__init__` for every constructed ship:
corners are normalized componentwise and the segment is axis-aligned. -/
def ShipWF (s : Ship) : Prop :=
  s.x_start ≤ s.x_end ∧ s.y_start ≤ s.y_end ∧
    (s.x_start = s.x_end ∨ s.y_start = s.y_end)

instance (s : Ship) : Decidable (ShipWF s) := by
  unfold ShipWF; infer_instance

/-- Chebyshev (king-move) distance between two coordinates. -/
def chebyshev (p q : Coord) : Nat :=
  max (p.1 - q.1).natAbs (p.2 - q.2).natAbs

/-- The 8 cells surrounding a coordinate (Chebyshev distance exactly 1). -/
def neighbors8 (c : Coord) : Finset Coord :=
  (PlayerMem.neighborOffsets.map fun d => (c.1 + d.1, c.2 + d.2)).toFinset

/-- Spec-side candidate target set, following spec.md §4.3 word for word:
every cell at Chebyshev distance 1 of some successful hit, intersected with
the valid grid, minus every coordinate already attacked and minus every
coordinate near (per `Ship.is_near_coordinate`) a known-sunk ship (the last
subtrahend is restricted to the grid to stay a finite set; the minuend already
lies inside the grid). -/
def candidate_target_set (p : PlayerMem) : Finset Coord :=
  ((grid.filter fun c => ∃ h ∈ p.successful_hits, chebyshev c h = 1) \
      p.set_positions_previously_attacked) \
    (grid.filter fun c => ∃ s ∈ p.set_ships_opponent_previously_sunk,
      s.is_near_coordinate c.1 c.2 = true)

/-- The damage a single ship accumulates over a sequence of shots:
`Board.is_attacked_at` forwards every on-footprint shot to
`Ship.gets_damage_at`, and `gets_damage_at` ignores off-footprint shots. -/
def Ship.receive_shots (s : Ship) (shots : List Coord) : Ship :=
  shots.foldl (fun t c => t.gets_damage_at c.1 c.2) s

/-- A length-1 ship occupying the single cell (3, 3), as built by
`Ship.construct (3, 3) (3, 3)`. -/
def ship33 : Ship := ⟨3, 3, 3, 3, ∅⟩

/-- A length-1 ship occupying the single cell (1, 1). -/
def ship11 : Ship := ⟨1, 1, 1, 1, ∅⟩

/-- A length-1 ship occupying the single cell (2, 2). -/
def ship22 : Ship := ⟨2, 2, 2, 2, ∅⟩

/-- The five-ship fleet from the sandbox block of board.py: one ship of each
length 1..5, pairwise non-adjacent. -/
def exampleFleet : List Ship :=
  [⟨1, 1, 1, 1, ∅⟩, ⟨3, 3, 3, 4, ∅⟩, ⟨5, 3, 5, 5, ∅⟩, ⟨7, 1, 7, 4, ∅⟩, ⟨9, 3, 9, 7, ∅⟩]

/-- The board built from `exampleFleet` with an empty shot history. -/
def exampleBoard : Board := ⟨exampleFleet, ∅⟩

/-! ### Support lemmas -/

theorem mem_get_all_coordinates (s : Ship) (c : Coord) :
    c ∈ s.get_all_coordinates ↔
      s.x_start ≤ c.1 ∧ c.1 ≤ s.x_end ∧ s.y_start ≤ c.2 ∧ c.2 ≤ s.y_end := by
  simp [Ship.get_all_coordinates, Finset.mem_product, Finset.mem_Icc, and_assoc]

theorem is_near_coordinate_iff (s : Ship) (cx cy : Int) :
    s.is_near_coordinate cx cy = true ↔
      s.x_start - 1 ≤ cx ∧ cx ≤ s.x_end + 1 ∧ s.y_start - 1 ≤ cy ∧ cy ≤ s.y_end + 1 := by
  simp [Ship.is_near_coordinate]

theorem valid_coordinates_iff_mem_grid (x y : Int) :
    valid_coordinates x y = true ↔ (x, y) ∈ grid := by
  simp [valid_coordinates, grid, Finset.mem_product, Finset.mem_Icc, and_assoc]

theorem chebyshev_le_one_iff (p q : Coord) :
    chebyshev p q ≤ 1 ↔ (p.1 - q.1).natAbs ≤ 1 ∧ (p.2 - q.2).natAbs ≤ 1 := by
  simp [chebyshev, max_le_iff]

theorem chebyshev_eq_one_iff (p q : Coord) :
    chebyshev p q = 1 ↔
      ((p.1 - q.1).natAbs ≤ 1 ∧ (p.2 - q.2).natAbs ≤ 1 ∧ ¬(p.1 = q.1 ∧ p.2 = q.2)) := by
  rw [chebyshev, Nat.max_def]
  split <;> omega

theorem mem_neighborOffsets_iff (d : Int × Int) :
    d ∈ PlayerMem.neighborOffsets ↔ d.1.natAbs ≤ 1 ∧ d.2.natAbs ≤ 1 ∧ d ≠ (0, 0) := by
  rcases d with ⟨i, j⟩
  simp [PlayerMem.neighborOffsets, Prod.ext_iff]
  omega

theorem mem_neighbors8_iff (c x : Coord) :
    x ∈ neighbors8 c ↔ chebyshev x c = 1 := by
  rcases c with ⟨u, v⟩
  rcases x with ⟨a, b⟩
  rw [chebyshev_eq_one_iff]
  show _ ↔ (a - u).natAbs ≤ 1 ∧ (b - v).natAbs ≤ 1 ∧ ¬(a = u ∧ b = v)
  simp only [neighbors8, List.mem_toFinset, List.mem_map]
  constructor
  · rintro ⟨⟨i, j⟩, hd, he⟩
    rw [mem_neighborOffsets_iff] at hd
    obtain ⟨hd1, hd2, hd3⟩ := hd
    have h3 : ¬(i = 0 ∧ j = 0) := by
      rintro ⟨e1, e2⟩
      exact hd3 (by rw [show ((i, j) : Int × Int) = (0, 0) from by rw [e1, e2]])
    cases he
    dsimp at hd1 hd2 ⊢
    omega
  · rintro ⟨h1, h2, h3⟩
    refine ⟨(a - u, b - v), ?_, ?_⟩
    · rw [mem_neighborOffsets_iff]
      refine ⟨by dsimp; omega, by dsimp; omega, ?_⟩
      intro heq
      have h4 : a - u = 0 := congrArg Prod.fst heq
      have h5 : b - v = 0 := congrArg Prod.snd heq
      omega
    · rw [Prod.mk.injEq]
      constructor <;> omega

theorem exists_near_interval (a b c : Int) (hab : a ≤ b) :
    (∃ t, a ≤ t ∧ t ≤ b ∧ (c - t).natAbs ≤ 1) ↔ a - 1 ≤ c ∧ c ≤ b + 1 := by
  constructor
  · rintro ⟨t, h1, h2, h3⟩
    omega
  · intro h
    rcases le_total c a with h1 | h1
    · exact ⟨a, le_refl a, hab, by omega⟩
    · rcases le_total c b with h2 | h2
      · exact ⟨c, h1, h2, by omega⟩
      · exact ⟨b, hab, le_refl b, by omega⟩

theorem near_iff_exists_cell (s : Ship) (hx : s.x_start ≤ s.x_end)
    (hy : s.y_start ≤ s.y_end) (cx cy : Int) :
    s.is_near_coordinate cx cy = true ↔
      ∃ p ∈ s.get_all_coordinates, chebyshev (cx, cy) p ≤ 1 := by
  rw [is_near_coordinate_iff]
  constructor
  · rintro ⟨h1, h2, h3, h4⟩
    obtain ⟨tx, htx1, htx2, htx3⟩ := (exists_near_interval s.x_start s.x_end cx hx).2 ⟨h1, h2⟩
    obtain ⟨ty, hty1, hty2, hty3⟩ := (exists_near_interval s.y_start s.y_end cy hy).2 ⟨h3, h4⟩
    refine ⟨(tx, ty), ?_, ?_⟩
    · rw [mem_get_all_coordinates]
      exact ⟨htx1, htx2, hty1, hty2⟩
    · rw [chebyshev_le_one_iff]
      exact ⟨htx3, hty3⟩
  · rintro ⟨p, hp, hc⟩
    rw [mem_get_all_coordinates] at hp
    rw [chebyshev_le_one_iff] at hc
    dsimp at hp hc
    omega

theorem card_get_all_coordinates (s : Ship) (h : ShipWF s) :
    s.get_all_coordinates.card = s.length := by
  obtain ⟨hx, hy, hor⟩ := h
  rw [Ship.get_all_coordinates, Finset.card_product, Int.card_Icc, Int.card_Icc, Ship.length]
  rcases hor with h1 | h1
  · have hm : max (s.x_end - s.x_start) (s.y_end - s.y_start) = s.y_end - s.y_start :=
      max_eq_right (by omega)
    rw [hm]
    have h2 : s.x_end + 1 - s.x_start = 1 := by omega
    rw [h2]
    simp
    omega
  · have hm : max (s.x_end - s.x_start) (s.y_end - s.y_start) = s.x_end - s.x_start :=
      max_eq_left (by omega)
    rw [hm]
    have h2 : s.y_end + 1 - s.y_start = 1 := by omega
    rw [h2]
    simp
    omega

theorem gets_damage_at_fields (s : Ship) (cx cy : Int) :
    (s.gets_damage_at cx cy).x_start = s.x_start ∧
    (s.gets_damage_at cx cy).y_start = s.y_start ∧
    (s.gets_damage_at cx cy).x_end = s.x_end ∧
    (s.gets_damage_at cx cy).y_end = s.y_end := by
  rw [Ship.gets_damage_at]
  split <;> simp

theorem gets_damage_at_cells (s : Ship) (cx cy : Int) :
    (s.gets_damage_at cx cy).get_all_coordinates = s.get_all_coordinates := by
  rw [Ship.gets_damage_at]
  split <;> rfl

theorem gets_damage_at_damages (s : Ship) (cx cy : Int) :
    (s.gets_damage_at cx cy).set_coordinates_damages =
      if (cx, cy) ∈ s.get_all_coordinates then
        insert (cx, cy) s.set_coordinates_damages
      else s.set_coordinates_damages := by
  rw [Ship.gets_damage_at]
  split <;> rfl

theorem is_damaged_after_damage (s : Ship) (cx cy : Int)
    (h : (cx, cy) ∈ s.get_all_coordinates) :
    (s.gets_damage_at cx cy).is_damaged_at cx cy = true := by
  simp [Ship.is_damaged_at, gets_damage_at_damages, h]

theorem attackFleet_miss (cx cy : Int) (l : List Ship)
    (h : ∀ t ∈ l, (cx, cy) ∉ t.get_all_coordinates) :
    Board.attackFleet cx cy l = (l, false, false) := by
  induction l with
  | nil => rfl
  | cons s rest ih =>
    rw [Board.attackFleet, if_neg (h s (List.mem_cons_self s rest))]
    rw [ih fun t ht => h t (List.mem_cons_of_mem s ht)]

theorem attackFleet_hit (cx cy : Int) (l1 : List Ship) (s : Ship) (l2 : List Ship)
    (h1 : ∀ t ∈ l1, (cx, cy) ∉ t.get_all_coordinates)
    (h2 : (cx, cy) ∈ s.get_all_coordinates) :
    Board.attackFleet cx cy (l1 ++ s :: l2) =
      (l1 ++ s.gets_damage_at cx cy :: l2, true, (s.gets_damage_at cx cy).has_sunk) := by
  induction l1 with
  | nil =>
    rw [List.nil_append, List.nil_append, Board.attackFleet, if_pos h2]
    simp only [is_damaged_after_damage s cx cy h2]
  | cons t rest ih =>
    rw [List.cons_append, Board.attackFleet,
      if_neg (h1 t (List.mem_cons_self t rest)),
      ih fun u hu => h1 u (List.mem_cons_of_mem t hu)]
    rfl

/-! ### C2 -/

/-- C2: `Ship` construction normalizes the corners componentwise with min/max
so that start ≤ end in each component, and raises a geometry error exactly
when the two corners differ in both components, i.e. when the normalized
segment is neither horizontal nor vertical; in particular construction
succeeds for every axis-aligned pair of corners. -/
theorem construct_normalizes_and_errors_iff (cs ce : Coord) :
    (∀ s, Ship.construct cs ce = Except.ok s →
        s.x_start = min cs.1 ce.1 ∧ s.x_end = max cs.1 ce.1 ∧
        s.y_start = min cs.2 ce.2 ∧ s.y_end = max cs.2 ce.2 ∧
        s.x_start ≤ s.x_end ∧ s.y_start ≤ s.y_end ∧
        s.set_coordinates_damages = ∅) ∧
    ((∃ e, Ship.construct cs ce = Except.error e) ↔ cs.1 ≠ ce.1 ∧ cs.2 ≠ ce.2) := by
  constructor
  · intro s hs
    simp only [Ship.construct] at hs
    split at hs
    · exact absurd hs (by simp)
    · injection hs with h
      subst h
      exact ⟨rfl, rfl, rfl, rfl, min_le_max, min_le_max, rfl⟩
  · simp only [Ship.construct]
    split
    case isTrue h =>
      simp only [Ship.is_horizontal, Ship.is_vertical, Bool.and_eq_true,
        Bool.not_eq_true', beq_eq_false_iff_ne, ne_eq] at h
      obtain ⟨hy, hx⟩ := h
      constructor
      · exact fun _ => ⟨by omega, by omega⟩
      · exact fun _ => ⟨_, rfl⟩
    case isFalse h =>
      simp only [Ship.is_horizontal, Ship.is_vertical, Bool.and_eq_true,
        Bool.not_eq_true', beq_eq_false_iff_ne, ne_eq] at h
      constructor
      · rintro ⟨e, he⟩
        exact absurd he (by simp)
      · rintro ⟨h1, h2⟩
        omega

/-- Witness for the C2 theorem, at the corners (3, 5) and (3, 3). -/
theorem construct_normalizes_and_errors_iff_witness :
    (⟨3, 3, 3, 5, ∅⟩ : Ship).x_start = min ((3 : Int), (5 : Int)).1 ((3 : Int), (3 : Int)).1 ∧
    (⟨3, 3, 3, 5, ∅⟩ : Ship).x_end = max ((3 : Int), (5 : Int)).1 ((3 : Int), (3 : Int)).1 ∧
    (⟨3, 3, 3, 5, ∅⟩ : Ship).y_start = min ((3 : Int), (5 : Int)).2 ((3 : Int), (3 : Int)).2 ∧
    (⟨3, 3, 3, 5, ∅⟩ : Ship).y_end = max ((3 : Int), (5 : Int)).2 ((3 : Int), (3 : Int)).2 ∧
    (⟨3, 3, 3, 5, ∅⟩ : Ship).x_start ≤ (⟨3, 3, 3, 5, ∅⟩ : Ship).x_end ∧
    (⟨3, 3, 3, 5, ∅⟩ : Ship).y_start ≤ (⟨3, 3, 3, 5, ∅⟩ : Ship).y_end ∧
    (⟨3, 3, 3, 5, ∅⟩ : Ship).set_coordinates_damages = ∅ :=
  (construct_normalizes_and_errors_iff ((3 : Int), (5 : Int)) ((3 : Int), (3 : Int))).1
    ⟨3, 3, 3, 5, ∅⟩ rfl

/-! ### C9 -/

/-- C9: `Board.is_attacked_at` performs no bounds check: every coordinate,
including out-of-grid ones such as (0, 0), is unconditionally inserted into
the shot history before fleet resolution; the shot history only grows, and
re-recording an already-present coordinate leaves the history unchanged (each
coordinate is recorded at most once). -/
theorem shot_history_invariants (b : Board) (cx cy : Int) :
    ((b.is_attacked_at cx cy).1.set_coordinates_previous_shots =
        insert (cx, cy) b.set_coordinates_previous_shots) ∧
    (b.set_coordinates_previous_shots ⊆
        (b.is_attacked_at cx cy).1.set_coordinates_previous_shots) ∧
    ((cx, cy) ∈ (b.is_attacked_at cx cy).1.set_coordinates_previous_shots) ∧
    (valid_coordinates 0 0 = false ∧
      ((0 : Int), (0 : Int)) ∈ (b.is_attacked_at 0 0).1.set_coordinates_previous_shots) ∧
    (((b.is_attacked_at cx cy).1.is_attacked_at cx cy).1.set_coordinates_previous_shots =
        (b.is_attacked_at cx cy).1.set_coordinates_previous_shots) := by
  refine ⟨rfl, Finset.subset_insert _ _, Finset.mem_insert_self _ _,
    ⟨by decide, Finset.mem_insert_self _ _⟩, ?_⟩
  show insert (cx, cy) (insert (cx, cy) b.set_coordinates_previous_shots) = _
  exact Finset.insert_idem _ _

/-! ### C1 -/

/-- C1: `Board.is_attacked_at` records the coordinate into the shot history
and scans the fleet in fleet order; when no ship occupies the coordinate it
returns the fleet unchanged with (hit = false, sunk = false), and when the
fleet splits as `l1 ++ s :: l2` with every ship of `l1` missing the coordinate
and `s` occupying it, it damages exactly `s` and returns
(hit = true, sunk = the damaged ship's has_sunk). -/
theorem is_attacked_at_resolution (b : Board) (cx cy : Int) :
    ((b.is_attacked_at cx cy).1.set_coordinates_previous_shots =
        insert (cx, cy) b.set_coordinates_previous_shots) ∧
    ((∀ s ∈ b.list_ships, (cx, cy) ∉ s.get_all_coordinates) →
        b.is_attacked_at cx cy =
          (⟨b.list_ships, insert (cx, cy) b.set_coordinates_previous_shots⟩, false, false)) ∧
    (∀ l1 s l2, b.list_ships = l1 ++ s :: l2 →
        (∀ t ∈ l1, (cx, cy) ∉ t.get_all_coordinates) →
        (cx, cy) ∈ s.get_all_coordinates →
        b.is_attacked_at cx cy =
          (⟨l1 ++ s.gets_damage_at cx cy :: l2,
              insert (cx, cy) b.set_coordinates_previous_shots⟩,
            true, (s.gets_damage_at cx cy).has_sunk)) := by
  refine ⟨rfl, ?_, ?_⟩
  · intro h
    rw [Board.is_attacked_at]
    rw [attackFleet_miss cx cy b.list_ships h]
  · intro l1 s l2 hsplit h1 h2
    rw [Board.is_attacked_at, hsplit]
    rw [attackFleet_hit cx cy l1 s l2 h1 h2]

/-- Witness for the C1 theorem: attacking (3, 3) on the example board hits the
length-2 ship in second fleet position, the first ship missing. -/
theorem is_attacked_at_resolution_witness :
    exampleBoard.is_attacked_at 3 3 =
      (⟨[⟨1, 1, 1, 1, ∅⟩] ++ (⟨3, 3, 3, 4, ∅⟩ : Ship).gets_damage_at 3 3 ::
          [⟨5, 3, 5, 5, ∅⟩, ⟨7, 1, 7, 4, ∅⟩, ⟨9, 3, 9, 7, ∅⟩],
          insert ((3 : Int), (3 : Int)) exampleBoard.set_coordinates_previous_shots⟩,
        true, ((⟨3, 3, 3, 4, ∅⟩ : Ship).gets_damage_at 3 3).has_sunk) :=
  (is_attacked_at_resolution exampleBoard 3 3).2.2
    [⟨1, 1, 1, 1, ∅⟩] ⟨3, 3, 3, 4, ∅⟩ [⟨5, 3, 5, 5, ∅⟩, ⟨7, 1, 7, 4, ∅⟩, ⟨9, 3, 9, 7, ∅⟩]
    rfl (by decide) (by decide)

/-! ### C10 -/

theorem attackFleet_length (cx cy : Int) (l : List Ship) :
    (Board.attackFleet cx cy l).1.length = l.length := by
  induction l with
  | nil => rfl
  | cons s rest ih =>
    rw [Board.attackFleet]
    split
    · rfl
    · show ((Board.attackFleet cx cy rest).1.length) + 1 = rest.length + 1
      rw [ih]

theorem attackFleet_get_cases (cx cy : Int) (l : List Ship) (i : Nat)
    (h : i < l.length) (h' : i < (Board.attackFleet cx cy l).1.length) :
    (Board.attackFleet cx cy l).1.get ⟨i, h'⟩ = l.get ⟨i, h⟩ ∨
      ((Board.attackFleet cx cy l).1.get ⟨i, h'⟩ = (l.get ⟨i, h⟩).gets_damage_at cx cy ∧
        (cx, cy) ∈ (l.get ⟨i, h⟩).get_all_coordinates ∧
        ∀ j (hj : j < i), (cx, cy) ∉ (l.get ⟨j, hj.trans h⟩).get_all_coordinates) := by
  induction l generalizing i with
  | nil => exact absurd h (Nat.not_lt_zero i)
  | cons s rest ih =>
    by_cases hc : (cx, cy) ∈ s.get_all_coordinates
    · have hres : (Board.attackFleet cx cy (s :: rest)).1 = s.gets_damage_at cx cy :: rest := by
        rw [Board.attackFleet, if_pos hc]
      cases i with
      | zero =>
        right
        refine ⟨?_, hc, fun j hj => absurd hj (Nat.not_lt_zero j)⟩
        have := List.get_of_eq hres ⟨0, by rw [hres]; exact Nat.succ_pos _⟩
        simpa using this
      | succ k =>
        left
        have hk : k < rest.length := Nat.lt_of_succ_lt_succ h
        have := List.get_of_eq hres ⟨k + 1, by rw [hres]; simpa using hk⟩
        simpa using this
    · have hres : (Board.attackFleet cx cy (s :: rest)).1 =
          s :: (Board.attackFleet cx cy rest).1 := by
        rw [Board.attackFleet, if_neg hc]
      cases i with
      | zero =>
        left
        have := List.get_of_eq hres ⟨0, by rw [hres]; exact Nat.succ_pos _⟩
        simpa using this
      | succ k =>
        have hk : k < rest.length := Nat.lt_of_succ_lt_succ h
        have hk' : k < (Board.attackFleet cx cy rest).1.length := by
          rw [attackFleet_length]; exact hk
        have hgetk : (Board.attackFleet cx cy (s :: rest)).1.get ⟨k + 1, h'⟩ =
            (Board.attackFleet cx cy rest).1.get ⟨k, hk'⟩ := by
          have := List.get_of_eq hres ⟨k + 1, h'⟩
          simpa using this
        rcases ih k hk hk' with he | ⟨he, hm, hall⟩
        · left
          rw [hgetk]
          exact he
        · right
          refine ⟨?_, hm, ?_⟩
          · rw [hgetk]
            exact he
          · intro j hj
            cases j with
            | zero => exact hc
            | succ m => exact hall m (Nat.lt_of_succ_lt_succ hj)

/-- C10: one call to `Board.is_attacked_at` mutates at most the shot history
and the damage set of the first ship in fleet order occupying the coordinate:
the fleet keeps its length and order, every ship keeps its footprint, every
ship not occupying the coordinate is returned unchanged, and a ship that did
change is the first occupant and changed exactly by `gets_damage_at`. -/
theorem is_attacked_at_frame (b : Board) (cx cy : Int) :
    ((b.is_attacked_at cx cy).1.list_ships.length = b.list_ships.length) ∧
    (∀ i (h : i < b.list_ships.length)
        (h' : i < (b.is_attacked_at cx cy).1.list_ships.length),
        ((b.is_attacked_at cx cy).1.list_ships.get ⟨i, h'⟩).get_all_coordinates =
          (b.list_ships.get ⟨i, h⟩).get_all_coordinates) ∧
    (∀ i (h : i < b.list_ships.length)
        (h' : i < (b.is_attacked_at cx cy).1.list_ships.length),
        (cx, cy) ∉ (b.list_ships.get ⟨i, h⟩).get_all_coordinates →
          (b.is_attacked_at cx cy).1.list_ships.get ⟨i, h'⟩ = b.list_ships.get ⟨i, h⟩) ∧
    (∀ i (h : i < b.list_ships.length)
        (h' : i < (b.is_attacked_at cx cy).1.list_ships.length),
        (b.is_attacked_at cx cy).1.list_ships.get ⟨i, h'⟩ ≠ b.list_ships.get ⟨i, h⟩ →
          ((b.is_attacked_at cx cy).1.list_ships.get ⟨i, h'⟩ =
              (b.list_ships.get ⟨i, h⟩).gets_damage_at cx cy ∧
            (cx, cy) ∈ (b.list_ships.get ⟨i, h⟩).get_all_coordinates ∧
            ∀ j (hj : j < i),
              (cx, cy) ∉ (b.list_ships.get ⟨j, hj.trans h⟩).get_all_coordinates)) := by
  have hfleet : (b.is_attacked_at cx cy).1.list_ships = (Board.attackFleet cx cy b.list_ships).1 := rfl
  refine ⟨by rw [hfleet]; exact attackFleet_length cx cy b.list_ships, ?_, ?_, ?_⟩
  · intro i h h'
    have h'' : i < (Board.attackFleet cx cy b.list_ships).1.length := by rw [← hfleet]; exact h'
    have hg : (b.is_attacked_at cx cy).1.list_ships.get ⟨i, h'⟩ =
        (Board.attackFleet cx cy b.list_ships).1.get ⟨i, h''⟩ := List.get_of_eq hfleet _
    rcases attackFleet_get_cases cx cy b.list_ships i h h'' with he | ⟨he, _, _⟩
    · rw [hg, he]
    · rw [hg, he, gets_damage_at_cells]
  · intro i h h' hnot
    have h'' : i < (Board.attackFleet cx cy b.list_ships).1.length := by rw [← hfleet]; exact h'
    have hg : (b.is_attacked_at cx cy).1.list_ships.get ⟨i, h'⟩ =
        (Board.attackFleet cx cy b.list_ships).1.get ⟨i, h''⟩ := List.get_of_eq hfleet _
    rcases attackFleet_get_cases cx cy b.list_ships i h h'' with he | ⟨_, hm, _⟩
    · rw [hg, he]
    · exact absurd hm hnot
  · intro i h h' hne
    have h'' : i < (Board.attackFleet cx cy b.list_ships).1.length := by rw [← hfleet]; exact h'
    have hg : (b.is_attacked_at cx cy).1.list_ships.get ⟨i, h'⟩ =
        (Board.attackFleet cx cy b.list_ships).1.get ⟨i, h''⟩ := List.get_of_eq hfleet _
    rcases attackFleet_get_cases cx cy b.list_ships i h h'' with he | ⟨he, hm, hall⟩
    · exact absurd (hg.trans he) hne
    · exact ⟨hg.trans he, hm, hall⟩

/-- Witness for the C10 theorem: attacking (3, 3) on the example board leaves
the first (non-occupying) ship unchanged. -/
theorem is_attacked_at_frame_witness :
    (exampleBoard.is_attacked_at 3 3).1.list_ships.length = exampleBoard.list_ships.length ∧
    (exampleBoard.is_attacked_at 3 3).1.list_ships.get ⟨0, by decide⟩ =
      exampleBoard.list_ships.get ⟨0, by decide⟩ :=
  ⟨(is_attacked_at_frame exampleBoard 3 3).1,
    (is_attacked_at_frame exampleBoard 3 3).2.2.1 0 (by decide) (by decide) (by decide)⟩

/-! ### C4 -/

theorem gets_damage_at_idem (s : Ship) (cx cy : Int) :
    (s.gets_damage_at cx cy).gets_damage_at cx cy = s.gets_damage_at cx cy := by
  by_cases hc : (cx, cy) ∈ s.get_all_coordinates
  · have h1 : s.gets_damage_at cx cy =
        { s with set_coordinates_damages := insert (cx, cy) s.set_coordinates_damages } := by
      rw [Ship.gets_damage_at, if_pos hc]
    have h2 : (cx, cy) ∈
        ({ s with set_coordinates_damages :=
            insert (cx, cy) s.set_coordinates_damages } : Ship).get_all_coordinates := hc
    rw [h1, Ship.gets_damage_at, if_pos h2]
    rw [Finset.insert_idem]
  · have h1 : s.gets_damage_at cx cy = s := by rw [Ship.gets_damage_at, if_neg hc]
    rw [h1, h1]

theorem attackFleet_idem (cx cy : Int) (l : List Ship) :
    Board.attackFleet cx cy (Board.attackFleet cx cy l).1 = Board.attackFleet cx cy l := by
  induction l with
  | nil => rfl
  | cons s rest ih =>
    by_cases hc : (cx, cy) ∈ s.get_all_coordinates
    · have h1 : Board.attackFleet cx cy (s :: rest) =
          (s.gets_damage_at cx cy :: rest,
            (s.gets_damage_at cx cy).is_damaged_at cx cy,
            (s.gets_damage_at cx cy).has_sunk) := by
        rw [Board.attackFleet, if_pos hc]
      have hc2 : (cx, cy) ∈ (s.gets_damage_at cx cy).get_all_coordinates := by
        rw [gets_damage_at_cells]; exact hc
      rw [h1]
      show Board.attackFleet cx cy (s.gets_damage_at cx cy :: rest) = _
      rw [Board.attackFleet, if_pos hc2, gets_damage_at_idem]
    · have h1 : Board.attackFleet cx cy (s :: rest) =
          (s :: (Board.attackFleet cx cy rest).1, (Board.attackFleet cx cy rest).2) := by
        rw [Board.attackFleet, if_neg hc]
      rw [h1]
      show Board.attackFleet cx cy (s :: (Board.attackFleet cx cy rest).1) = _
      rw [Board.attackFleet, if_neg hc, ih]

theorem receive_shots_cells (s : Ship) (shots : List Coord) :
    (s.receive_shots shots).get_all_coordinates = s.get_all_coordinates := by
  induction shots generalizing s with
  | nil => rfl
  | cons c cs ih =>
    show ((s.gets_damage_at c.1 c.2).receive_shots cs).get_all_coordinates = _
    rw [ih, gets_damage_at_cells]

theorem receive_shots_damages (s : Ship) (shots : List Coord) :
    (s.receive_shots shots).set_coordinates_damages =
      s.set_coordinates_damages ∪
        shots.toFinset.filter (· ∈ s.get_all_coordinates) := by
  induction shots generalizing s with
  | nil => simp [Ship.receive_shots]
  | cons c cs ih =>
    show ((s.gets_damage_at c.1 c.2).receive_shots cs).set_coordinates_damages = _
    rw [ih, gets_damage_at_cells, gets_damage_at_damages]
    by_cases hc : (c.1, c.2) ∈ s.get_all_coordinates
    · rw [if_pos hc, List.toFinset_cons, Finset.filter_insert, if_pos (by simpa using hc)]
      rw [Finset.insert_union, Finset.union_insert]
    · rw [if_neg hc, List.toFinset_cons, Finset.filter_insert, if_neg (by simpa using hc)]

/-- C4: attack resolution is idempotent with respect to ship damage: attacking
the same coordinate twice leaves the whole board state and result, hence every
ship's has_sunk, equal to its value after the first attack; a ship with empty
initial damage over a sequence of shots sinks iff the number of distinct
attacked cells of its footprint equals its length; and repeatedly attacking
one single cell never sinks a ship of length greater than 1. -/
theorem attack_idempotent_and_sink_characterization :
    (∀ (b : Board) (cx cy : Int),
        (b.is_attacked_at cx cy).1.is_attacked_at cx cy = b.is_attacked_at cx cy) ∧
    (∀ (s : Ship) (shots : List Coord), ShipWF s → s.set_coordinates_damages = ∅ →
        ((s.receive_shots shots).has_sunk = true ↔
          (s.get_all_coordinates ∩ shots.toFinset).card = s.length)) ∧
    (∀ (s : Ship) (c : Coord) (n : Nat), ShipWF s → s.set_coordinates_damages = ∅ →
        1 < s.length → (s.receive_shots (List.replicate n c)).has_sunk = false) := by
  refine ⟨?_, ?_, ?_⟩
  · intro b cx cy
    have hview : ∀ bd : Board, bd.is_attacked_at cx cy =
        (⟨(Board.attackFleet cx cy bd.list_ships).1,
            insert (cx, cy) bd.set_coordinates_previous_shots⟩,
          (Board.attackFleet cx cy bd.list_ships).2) := fun bd => rfl
    rw [hview, hview]
    dsimp only
    rw [attackFleet_idem, Finset.insert_idem]
  · intro s shots hwf hd0
    rw [Ship.has_sunk, decide_eq_true_eq, receive_shots_cells, receive_shots_damages, hd0]
    rw [Finset.empty_union, Finset.filter_mem_eq_inter]
    constructor
    · intro h
      rw [← card_get_all_coordinates s hwf, Finset.inter_comm, h]
    · intro h
      have h1 : s.get_all_coordinates ∩ shots.toFinset = s.get_all_coordinates :=
        Finset.eq_of_subset_of_card_le Finset.inter_subset_left
          (by rw [h, card_get_all_coordinates s hwf])
      have hsub : s.get_all_coordinates ⊆ shots.toFinset := Finset.inter_eq_left.mp h1
      exact Finset.inter_eq_right.mpr hsub
  · intro s c n hwf hd0 hlen
    rw [Ship.has_sunk, decide_eq_false_iff_not, receive_shots_cells, receive_shots_damages,
      hd0, Finset.empty_union]
    intro heq
    have hsub : s.get_all_coordinates ⊆ (List.replicate n c).toFinset := by
      rw [← heq]
      exact Finset.filter_subset _ _
    have hsub2 : (List.replicate n c).toFinset ⊆ {c} := by
      intro x hx
      rw [List.mem_toFinset, List.mem_replicate] at hx
      rw [Finset.mem_singleton]
      exact hx.2
    have hcard : s.get_all_coordinates.card ≤ 1 := by
      calc s.get_all_coordinates.card ≤ ({c} : Finset Coord).card :=
            Finset.card_le_card (hsub.trans hsub2)
        _ = 1 := Finset.card_singleton c
    rw [card_get_all_coordinates s hwf] at hcard
    omega

/-- Witness for the C4 theorem: the length-3 vertical ship at (3, 3)-(3, 5)
sinks after the three distinct footprint shots, and never sinks from five
shots at the single cell (3, 3). -/
theorem attack_idempotent_and_sink_witness :
    (((⟨3, 3, 3, 5, ∅⟩ : Ship).receive_shots
          [((3 : Int), (3 : Int)), (3, 4), (3, 5)]).has_sunk = true ↔
      ((⟨3, 3, 3, 5, ∅⟩ : Ship).get_all_coordinates ∩
          ([((3 : Int), (3 : Int)), (3, 4), (3, 5)] : List Coord).toFinset).card =
        (⟨3, 3, 3, 5, ∅⟩ : Ship).length) ∧
    ((⟨3, 3, 3, 5, ∅⟩ : Ship).receive_shots
        (List.replicate 5 ((3 : Int), (3 : Int)))).has_sunk = false :=
  ⟨attack_idempotent_and_sink_characterization.2.1 ⟨3, 3, 3, 5, ∅⟩ _ (by decide) rfl,
    attack_idempotent_and_sink_characterization.2.2 ⟨3, 3, 3, 5, ∅⟩ ((3 : Int), (3 : Int)) 5
      (by decide) rfl (by decide)⟩

/-! ### C3 -/

theorem chebyshev_comm (p q : Coord) : chebyshev p q = chebyshev q p := by
  rw [chebyshev, chebyshev]
  omega

theorem near_pair_bool_iff (a b : Ship) :
    (!(a.is_near_ship b && a != b)) = true ↔ ¬(a.is_near_ship b = true ∧ a ≠ b) := by
  rcases hn : a.is_near_ship b <;> by_cases he : a = b <;> simp [hn, he]

theorem valid_ship_placements_iff (l : List Ship) :
    valid_ship_placements l = true ↔
      l.Pairwise fun a b => ¬(a.is_near_ship b = true ∧ a ≠ b) := by
  induction l with
  | nil => simp [valid_ship_placements, combinations2]
  | cons s rest ih =>
    rw [List.pairwise_cons, ← ih]
    have hsplit : valid_ship_placements (s :: rest) =
        (((rest.map fun t => (s, t)).all fun p => !(p.1.is_near_ship p.2 && p.1 != p.2)) &&
          valid_ship_placements rest) := by
      rw [valid_ship_placements, combinations2, List.all_append]
      rfl
    rw [hsplit, Bool.and_eq_true]
    constructor
    · rintro ⟨h1, h2⟩
      refine ⟨fun t ht => ?_, h2⟩
      have hall := List.all_eq_true.mp h1 (s, t) (List.mem_map_of_mem _ ht)
      exact (near_pair_bool_iff s t).mp hall
    · rintro ⟨h1, h2⟩
      refine ⟨List.all_eq_true.mpr ?_, h2⟩
      rintro p hp
      obtain ⟨t, ht, rfl⟩ := List.mem_map.mp hp
      exact (near_pair_bool_iff s t).mpr (h1 t ht)

theorem histogram_pairwise_ne (l : List Ship)
    (h : ((l.map Ship.length : List Nat) : Multiset Nat) = required_lengths) :
    l.Pairwise (· ≠ ·) := by
  have h2 : ((l.map Ship.length : List Nat) : Multiset Nat).Nodup := by
    rw [h]
    decide
  have hnodup : (l.map Ship.length).Nodup := Multiset.coe_nodup.mp h2
  have hp : l.Pairwise fun a b => a.length ≠ b.length := List.pairwise_map.mp hnodup
  exact hp.imp fun hab he => hab (congrArg Ship.length he)

theorem is_near_ship_iff (a b : Ship) (ha : ShipWF a) :
    a.is_near_ship b = true ↔
      ∃ p ∈ a.get_all_coordinates, ∃ q ∈ b.get_all_coordinates, chebyshev p q ≤ 1 := by
  rw [Ship.is_near_ship, decide_eq_true_eq]
  constructor
  · rintro ⟨c, hc, hnear⟩
    rw [near_iff_exists_cell a ha.1 ha.2.1] at hnear
    obtain ⟨p, hp, hpc⟩ := hnear
    refine ⟨p, hp, c, hc, ?_⟩
    rw [chebyshev_comm]
    exact hpc
  · rintro ⟨p, hp, q, hq, hpq⟩
    refine ⟨q, hq, ?_⟩
    rw [near_iff_exists_cell a ha.1 ha.2.1]
    refine ⟨p, hp, ?_⟩
    rw [chebyshev_comm]
    exact hpq

/-- C3 (amended): Board construction succeeds exactly for fleets whose length
multiset equals the required one and in which no two distinct ships are within
Chebyshev distance 1; a histogram mismatch fails with InvalidFleetComposition
and an adjacency violation in a histogram-correct fleet fails with
ShipsTooClose; the two-singleton fleet {(1,1)}, {(2,2)} fails with
InvalidFleetComposition, since its histogram {1: 2} mismatches and that check
precedes the adjacency check. -/
theorem board_construct_validation :
    (∀ list_ships : List Ship, (∀ s ∈ list_ships, ShipWF s) →
        (((∃ b, Board.construct list_ships = Except.ok b) ↔
            (((list_ships.map Ship.length : List Nat) : Multiset Nat) = required_lengths ∧
              list_ships.Pairwise fun a b =>
                ¬∃ p ∈ a.get_all_coordinates, ∃ q ∈ b.get_all_coordinates,
                  chebyshev p q ≤ 1)) ∧
          (¬(((list_ships.map Ship.length : List Nat) : Multiset Nat) = required_lengths) →
            Board.construct list_ships = Except.error BoardError.InvalidFleetComposition) ∧
          ((((list_ships.map Ship.length : List Nat) : Multiset Nat) = required_lengths) →
            ¬(list_ships.Pairwise fun a b =>
                ¬∃ p ∈ a.get_all_coordinates, ∃ q ∈ b.get_all_coordinates,
                  chebyshev p q ≤ 1) →
            Board.construct list_ships = Except.error BoardError.ShipsTooClose))) ∧
    Board.construct [ship11, ship22] = Except.error BoardError.InvalidFleetComposition := by
  constructor
  · intro l hwf
    rcases hl : lengths_of_ships_correct l with hfalse | htrue
    · have hhist : ¬(((l.map Ship.length : List Nat) : Multiset Nat) = required_lengths) := by
        have := hl
        rw [lengths_of_ships_correct] at this
        exact of_decide_eq_false this
      have hconstruct : Board.construct l = Except.error BoardError.InvalidFleetComposition := by
        rw [Board.construct, hl]
        rfl
      refine ⟨?_, fun _ => hconstruct, fun hh _ => absurd hh hhist⟩
      constructor
      · rintro ⟨b, hb⟩
        rw [hconstruct] at hb
        exact absurd hb (by simp)
      · rintro ⟨hh, _⟩
        exact absurd hh hhist
    · have hhist : ((l.map Ship.length : List Nat) : Multiset Nat) = required_lengths := by
        have := hl
        rw [lengths_of_ships_correct] at this
        exact of_decide_eq_true this
      have hne : l.Pairwise (· ≠ ·) := histogram_pairwise_ne l hhist
      rcases hv : valid_ship_placements l with hvf | hvt
      · have hclose : ¬l.Pairwise fun a b =>
            ¬∃ p ∈ a.get_all_coordinates, ∃ q ∈ b.get_all_coordinates, chebyshev p q ≤ 1 := by
          intro hfar
          have hok : valid_ship_placements l = true := by
            rw [valid_ship_placements_iff]
            refine hfar.imp_of_mem ?_
            intro a b ha hb hnab
            rintro ⟨hnear, _⟩
            rw [is_near_ship_iff a b (hwf a ha)] at hnear
            exact hnab hnear
          rw [hv] at hok
          exact absurd hok (by simp)
        have hconstruct : Board.construct l = Except.error BoardError.ShipsTooClose := by
          rw [Board.construct, hl, are_some_ships_too_close_from_each_other, hv]
          rfl
        refine ⟨?_, fun hh => absurd hhist hh, fun _ _ => hconstruct⟩
        constructor
        · rintro ⟨b, hb⟩
          rw [hconstruct] at hb
          exact absurd hb (by simp)
        · rintro ⟨_, hfar⟩
          exact absurd hfar hclose
      · have hfar : l.Pairwise fun a b =>
            ¬∃ p ∈ a.get_all_coordinates, ∃ q ∈ b.get_all_coordinates, chebyshev p q ≤ 1 := by
          have hpw := (valid_ship_placements_iff l).mp hv
          refine (hpw.and hne).imp_of_mem ?_
          intro a b ha hb hab
          rintro ⟨p, hp, q, hq, hpq⟩
          exact hab.1 ⟨(is_near_ship_iff a b (hwf a ha)).mpr ⟨p, hp, q, hq, hpq⟩, hab.2⟩
        have hconstruct : Board.construct l = Except.ok ⟨l, ∅⟩ := by
          rw [Board.construct, hl, are_some_ships_too_close_from_each_other, hv]
          rfl
        refine ⟨?_, fun hh => absurd hhist hh, fun _ hnf => absurd hfar hnf⟩
        constructor
        · exact fun _ => ⟨hhist, hfar⟩
        · exact fun _ => ⟨⟨l, ∅⟩, hconstruct⟩
  · rfl

/-- Witness for the C3 theorem: the one-ship fleet has histogram {1: 1} and
fails with InvalidFleetComposition. -/
theorem board_construct_validation_witness :
    Board.construct [ship11] = Except.error BoardError.InvalidFleetComposition :=
  (board_construct_validation.1 [ship11] (by decide)).2.1 (by decide)

/-- Counterexample to C3 as stated: the two-singleton fleet {(1,1)}, {(2,2)}
fails with InvalidFleetComposition, not with ShipsTooClose. -/
theorem board_construct_two_singletons_counterexample :
    Board.construct [ship11, ship22] = Except.error BoardError.InvalidFleetComposition ∧
    Except.error (ε := BoardError) (α := Board) BoardError.InvalidFleetComposition ≠
      Except.error BoardError.ShipsTooClose := by
  constructor
  · rfl
  · intro h
    injection h with h2
    exact BoardError.noConfusion h2

/-! ### C7 -/

/-- C7 (amended): for a constructed ship, `is_near_coordinate` holds iff the
coordinate is within Chebyshev distance 1 of some occupied cell — equivalently
iff it lies in the footprint's bounding box expanded by 1 in every direction;
for a length-1 ship this reduces to the 3×3 block centered on the single
occupied cell, i.e. the 8 surrounding cells plus the occupied cell itself. -/
theorem near_coordinate_box_characterization (s : Ship) (h : ShipWF s) (cx cy : Int) :
    (s.is_near_coordinate cx cy = true ↔
      ∃ p ∈ s.get_all_coordinates, chebyshev (cx, cy) p ≤ 1) ∧
    (s.length = 1 →
      (s.is_near_coordinate cx cy = true ↔
        (cx, cy) ∈ insert (s.x_start, s.y_start) (neighbors8 (s.x_start, s.y_start)))) := by
  obtain ⟨hx, hy, _⟩ := h
  refine ⟨near_iff_exists_cell s hx hy cx cy, ?_⟩
  intro hlen
  rw [Ship.length] at hlen
  have he1 : s.x_end = s.x_start := by omega
  have he2 : s.y_end = s.y_start := by omega
  rw [is_near_coordinate_iff, he1, he2, Finset.mem_insert, mem_neighbors8_iff,
    chebyshev_eq_one_iff, Prod.mk.injEq]
  dsimp only
  omega

/-- Witness for the C7 theorem, at the length-1 ship on (3, 3) and the
coordinate (4, 4). -/
theorem near_coordinate_box_witness :
    (ship33.is_near_coordinate 4 4 = true ↔
      ∃ p ∈ ship33.get_all_coordinates, chebyshev (4, 4) p ≤ 1) ∧
    (ship33.length = 1 →
      (ship33.is_near_coordinate 4 4 = true ↔
        ((4 : Int), (4 : Int)) ∈ insert (ship33.x_start, ship33.y_start)
          (neighbors8 (ship33.x_start, ship33.y_start)))) :=
  near_coordinate_box_characterization ship33 (by decide) 4 4

/-- Counterexample to C7 as stated: the single occupied cell (3, 3) of a
length-1 ship satisfies `is_near_coordinate` but is not one of the 8 cells
surrounding (3, 3), so the near-set does not reduce to exactly those 8
cells. -/
theorem near_coordinate_center_counterexample :
    ship33.is_near_coordinate 3 3 = true ∧
    ship33.length = 1 ∧
    ship33.get_all_coordinates = {((3 : Int), (3 : Int))} ∧
    ((3 : Int), (3 : Int)) ∉ neighbors8 ((3 : Int), (3 : Int)) := by
  refine ⟨by decide, by decide, by decide, by decide⟩

/-! ### C6 -/

theorem mem_get_positions_near_hits (p : PlayerMem) (c : Coord) :
    c ∈ p.get_positions_near_hits ↔
      c ∈ grid ∧ ∃ h ∈ p.successful_hits, chebyshev c h = 1 := by
  simp only [PlayerMem.get_positions_near_hits, Finset.mem_biUnion, List.mem_toFinset,
    List.mem_map, List.mem_filter]
  constructor
  · rintro ⟨h, hh, d, ⟨hd, hv⟩, rfl⟩
    refine ⟨(valid_coordinates_iff_mem_grid _ _).mp hv, h, hh, ?_⟩
    rw [← mem_neighbors8_iff, neighbors8, List.mem_toFinset, List.mem_map]
    exact ⟨d, hd, rfl⟩
  · rintro ⟨hg, h, hh, hc⟩
    rw [← mem_neighbors8_iff, neighbors8, List.mem_toFinset, List.mem_map] at hc
    obtain ⟨d, hd, hde⟩ := hc
    refine ⟨h, hh, d, ⟨hd, ?_⟩, hde⟩
    rw [valid_coordinates_iff_mem_grid, hde]
    exact hg

/-- C6: for every attacker memory, `_get_likely_targets` equals the spec-side
candidate target set (cells at Chebyshev distance 1 of a successful hit,
inside the grid, minus attacked coordinates and coordinates near a known-sunk
ship); concretely, with one successful hit at (5, 5) and no sunk ships the
candidate set is the 8 neighbors of (5, 5) minus the attacked coordinates. -/
theorem likely_targets_eq_candidate_set :
    (∀ p : PlayerMem, p.get_likely_targets = candidate_target_set p) ∧
    (∀ attacked : Finset Coord,
        PlayerMem.get_likely_targets ⟨{((5 : Int), (5 : Int))}, ∅, attacked⟩ =
          neighbors8 ((5 : Int), (5 : Int)) \ attacked) := by
  have hmain : ∀ p : PlayerMem, p.get_likely_targets = candidate_target_set p := by
    intro p
    ext c
    simp only [PlayerMem.get_likely_targets, candidate_target_set, Finset.mem_sdiff,
      Finset.mem_filter, mem_get_positions_near_hits, PlayerMem.get_positions_near_ships]
    tauto
  refine ⟨hmain, ?_⟩
  intro attacked
  rw [hmain]
  have hsub : ∀ x ∈ neighbors8 ((5 : Int), (5 : Int)), x ∈ grid := by decide
  ext c
  simp only [candidate_target_set, Finset.mem_sdiff, Finset.mem_filter,
    Finset.mem_singleton, Finset.not_mem_empty]
  constructor
  · rintro ⟨⟨⟨hg, h, rfl, hc⟩, ha⟩, _⟩
    exact ⟨(mem_neighbors8_iff _ c).mpr hc, ha⟩
  · rintro ⟨hn, ha⟩
    refine ⟨⟨⟨hsub c hn, ((5 : Int), (5 : Int)), rfl, (mem_neighbors8_iff _ c).mp hn⟩, ha⟩, ?_⟩
    rintro ⟨_, s, hs, _⟩
    exact hs

/-! ### C5 and C8 -/

theorem select_random_sound (p : PlayerMem) (draws : List Coord) (c : Coord)
    (h : p.select_random_coordinates_to_attack draws = some c) :
    c ∉ p.set_positions_previously_attacked ∧
      p.is_position_near_previously_sunk_ship c = false := by
  induction draws with
  | nil => exact absurd h (by simp [PlayerMem.select_random_coordinates_to_attack])
  | cons d ds ih =>
    rw [PlayerMem.select_random_coordinates_to_attack] at h
    split at h
    · exact ih h
    · rename_i hcond
      injection h with h2
      subst h2
      push_neg at hcond
      exact ⟨hcond.1, by simpa using hcond.2⟩

/-- C5: a coordinate returned by `PlayerAutomatic.select_coordinates_to_attack`
is neither in the attacker's previously-attacked set at call time nor near any
enemy ship the attacker has recorded as sunk, for every pop choice from the
likely-target set and every random draw stream. -/
theorem select_coordinates_fresh_and_far (p : PlayerMem) (opponent_ships : List Ship)
    (pick : Finset Coord → Coord) (draws : List Coord) (c : Coord) (p' : PlayerMem)
    (hpick : (p.update_sunk_ships opponent_ships).get_likely_targets ≠ ∅ →
        pick (p.update_sunk_ships opponent_ships).get_likely_targets ∈
          (p.update_sunk_ships opponent_ships).get_likely_targets)
    (hsel : p.select_coordinates_to_attack opponent_ships pick draws = some (c, p')) :
    c ∉ p.set_positions_previously_attacked ∧
      ∀ s ∈ p'.set_ships_opponent_previously_sunk, s.has_sunk = true →
        s.is_near_coordinate c.1 c.2 = false := by
  simp only [PlayerMem.select_coordinates_to_attack] at hsel
  set p1 := p.update_sunk_ships opponent_ships with hp1
  by_cases hlt : p1.get_likely_targets ≠ ∅
  · rw [if_pos hlt] at hsel
    injection hsel with h3
    injection h3 with hc hp'
    subst hc
    subst hp'
    have hc_mem := hpick hlt
    rw [PlayerMem.get_likely_targets, Finset.mem_sdiff, Finset.mem_sdiff] at hc_mem
    obtain ⟨⟨hhits, hnotnear⟩, hnotatt⟩ := hc_mem
    have hg : pick p1.get_likely_targets ∈ grid :=
      ((mem_get_positions_near_hits p1 _).mp hhits).1
    refine ⟨hnotatt, ?_⟩
    intro s hs hsunk
    rcases hb : s.is_near_coordinate (pick p1.get_likely_targets).1
        (pick p1.get_likely_targets).2 with _ | _
    · rfl
    · exfalso
      apply hnotnear
      rw [PlayerMem.get_positions_near_ships, Finset.mem_filter]
      exact ⟨hg, s, hs, hb⟩
  · rw [if_neg hlt] at hsel
    rcases hr : p1.select_random_coordinates_to_attack draws with _ | c0
    · rw [hr] at hsel
      exact absurd hsel (by simp)
    · rw [hr] at hsel
      injection hsel with h3
      injection h3 with hc hp'
      subst hc
      subst hp'
      obtain ⟨hna, hnear⟩ := select_random_sound p1 draws c0 hr
      refine ⟨hna, ?_⟩
      intro s hs hsunk
      rcases hb : s.is_near_coordinate c0.1 c0.2 with _ | _
      · rfl
      · exfalso
        have hn2 : p1.is_position_near_previously_sunk_ship c0 = true := by
          rw [PlayerMem.is_position_near_previously_sunk_ship, decide_eq_true_eq]
          exact ⟨s, hs, hsunk, hb⟩
        rw [hn2] at hnear
        exact Bool.noConfusion hnear

/-- Witness for the C5 theorem: empty memory, no opponent ships, constant pick
function and the single draw (1, 1). -/
theorem select_coordinates_fresh_and_far_witness :
    ((1 : Int), (1 : Int)) ∉ (⟨∅, ∅, ∅⟩ : PlayerMem).set_positions_previously_attacked ∧
    (∀ s ∈ (⟨∅, ∅, {((1 : Int), (1 : Int))}⟩ : PlayerMem).set_ships_opponent_previously_sunk,
        s.has_sunk = true →
        s.is_near_coordinate ((1 : Int), (1 : Int)).1 ((1 : Int), (1 : Int)).2 = false) :=
  select_coordinates_fresh_and_far ⟨∅, ∅, ∅⟩ []
    (fun _ => ((1 : Int), (1 : Int))) [((1 : Int), (1 : Int))]
    ((1 : Int), (1 : Int)) ⟨∅, ∅, {((1 : Int), (1 : Int))}⟩ (by decide) (by decide)

/-- C8: the random selection loop, modelled over an explicit stream of draws,
returns a legal cell (neither previously attacked nor near a previously sunk
ship) whenever the stream contains one — the loop stops at the first legal
draw — and whenever at least one legal cell remains on the grid some draw
stream makes the loop terminate with a legal cell. -/
theorem select_random_terminates (p : PlayerMem) :
    (∀ draws : List Coord,
        (∃ d ∈ draws, d ∉ p.set_positions_previously_attacked ∧
            p.is_position_near_previously_sunk_ship d = false) →
        ∃ c, p.select_random_coordinates_to_attack draws = some c ∧
          c ∉ p.set_positions_previously_attacked ∧
          p.is_position_near_previously_sunk_ship c = false) ∧
    ((∃ d ∈ grid, d ∉ p.set_positions_previously_attacked ∧
        p.is_position_near_previously_sunk_ship d = false) →
      ∃ draws : List Coord, ∃ c,
        p.select_random_coordinates_to_attack draws = some c ∧
          c ∉ p.set_positions_previously_attacked ∧
          p.is_position_near_previously_sunk_ship c = false) := by
  have h1 : ∀ draws : List Coord,
      (∃ d ∈ draws, d ∉ p.set_positions_previously_attacked ∧
          p.is_position_near_previously_sunk_ship d = false) →
      ∃ c, p.select_random_coordinates_to_attack draws = some c ∧
        c ∉ p.set_positions_previously_attacked ∧
        p.is_position_near_previously_sunk_ship c = false := by
    intro draws
    induction draws with
    | nil =>
      rintro ⟨d, hd, _⟩
      exact absurd hd (List.not_mem_nil d)
    | cons d ds ih =>
      rintro ⟨e, he, hel⟩
      rw [PlayerMem.select_random_coordinates_to_attack]
      by_cases hcond : d ∈ p.set_positions_previously_attacked ∨
          p.is_position_near_previously_sunk_ship d = true
      · rw [if_pos hcond]
        apply ih
        rcases List.mem_cons.mp he with rfl | hee
        · exfalso
          rcases hcond with hc | hc
          · exact hel.1 hc
          · rw [hel.2] at hc
            exact Bool.noConfusion hc
        · exact ⟨e, hee, hel⟩
      · rw [if_neg hcond]
        push_neg at hcond
        exact ⟨d, rfl, hcond.1, by simpa using hcond.2⟩
  refine ⟨h1, ?_⟩
  rintro ⟨d, _, hl⟩
  exact ⟨[d], h1 [d] ⟨d, List.mem_cons_self d [], hl⟩⟩

/-- Witness for the C8 theorem: empty memory and the single draw (2, 2). -/
theorem select_random_terminates_witness :
    ∃ c, (⟨∅, ∅, ∅⟩ : PlayerMem).select_random_coordinates_to_attack
        [((2 : Int), (2 : Int))] = some c ∧
      c ∉ (⟨∅, ∅, ∅⟩ : PlayerMem).set_positions_previously_attacked ∧
      (⟨∅, ∅, ∅⟩ : PlayerMem).is_position_near_previously_sunk_ship c = false :=
  (select_random_terminates ⟨∅, ∅, ∅⟩).1 [((2 : Int), (2 : Int))]
    ⟨((2 : Int), (2 : Int)), by decide, by decide, by decide⟩

end Battleship
